/-
Verification of the recap-rabbit backend against its specification.

The definitions below are shallow embeddings of the Python source under
`backend/app/`.  Pure functions are translated directly; stateful code
(database rows) is modelled by explicit record/state passing.  Where the
repository's data-access functions for the subscription ledger are not part
of the provided sources (only their callers and tests are), the definitions
carry a doc comment starting with `Modelled from the spec:`.
-/
import Mathlib

/-! ## String helpers

Executable counterparts of the Python string operations used by the source
(`str.lower`, `str.startswith`, `c in s`), implemented on the character
list of a `String` so that concrete instances reduce in the kernel.  The
hostnames and schemes involved are ASCII, where `Char.toLower` agrees with
Python's `str.lower`. -/

/-- Python `s.lower()` (ASCII). -/
def pyLower (s : String) : String := ⟨s.data.map Char.toLower⟩

/-- Python `s.startswith(p)`. -/
def pyStartsWith (s p : String) : Bool := p.data.isPrefixOf s.data

/-- Python `c in s` for a single character. -/
def pyContainsChar (s : String) (c : Char) : Bool := s.data.contains c

/-! ## SSRF guard (`app/services/subscription_checker.py`, lines 18-89)

`validate_feed_url` receives a URL string and inspects the result of
Python's `urlparse`.  The embedding operates on the parsed form: the scheme
and the optional hostname (Python's `parsed.hostname`, `None` when the URL
has no network location). -/

structure ParsedUrl where
  scheme : String
  hostname : Option String
deriving DecidableEq, Repr

/-- `ALLOWED_SCHEMES = {'http', 'https'}` (line 19). -/
def ALLOWED_SCHEMES : List String := ["http", "https"]

/-- `BLOCKED_HOSTS = {'localhost', '127.0.0.1', '0.0.0.0', '::1'}` (line 21). -/
def BLOCKED_HOSTS : List String := ["localhost", "127.0.0.1", "0.0.0.0", "::1"]

/-- Embedding of `validate_feed_url` (lines 62-89): reject a scheme outside
the allow-set, a hostname in the blocked set (case-insensitively), a
hostname starting with `10.`, `192.168.` or `172.`, and finally an empty
hostname or one without a dot. -/
def validate_feed_url (u : ParsedUrl) : Bool :=
  if !(ALLOWED_SCHEMES.contains (pyLower u.scheme)) then false
  else
    let hostname := u.hostname.getD ""
    if BLOCKED_HOSTS.contains (pyLower hostname) then false
    else if pyStartsWith hostname "10." || pyStartsWith hostname "192.168."
        || pyStartsWith hostname "172." then false
    else if hostname == "" || !(pyContainsChar hostname '.') then false
    else true

/-- The private-range test exactly as claim C3 words it: the hostname lies
in `172.16.0.0/12` when read as a literal prefix, i.e. it starts with one
of `172.16.` … `172.31.`. -/
def inPrefixRange172 (h : String) : Bool :=
  (List.range 16).any fun k => pyStartsWith h ("172." ++ toString (16 + k) ++ ".")

/-- The "public hostname" predicate exactly as claim C3 words it: non-empty,
not a loopback/localhost alias, and not within `10.0.0.0/8`,
`172.16.0.0/12` or `192.168.0.0/16` checked as a prefix of the literal
hostname. -/
def claimPublicHostname (h : String) : Bool :=
  !(h == "") && !(BLOCKED_HOSTS.contains (pyLower h))
    && !(pyStartsWith h "10.") && !(inPrefixRange172 h) && !(pyStartsWith h "192.168.")

/-- C3 counterexample: the hostname `172.32.0.1` is public in the claim's
sense (it lies outside `172.16.0.0/12`), the scheme is `http`, yet
`validate_feed_url` rejects the URL because the source blocks every
hostname starting with `172.` (line 80), not just the `/12` range.  Hence
the claimed "if and only if" fails at `http://172.32.0.1/feed`. -/
theorem validate_feed_url_not_iff_claim :
    validate_feed_url ⟨"http", some "172.32.0.1"⟩ = false
    ∧ ALLOWED_SCHEMES.contains (pyLower "http") = true
    ∧ claimPublicHostname "172.32.0.1" = true := by
  refine ⟨?_, ?_, ?_⟩ <;> decide

/-- C3 amended: `validate_feed_url` accepts a parsed URL iff the lowercased
scheme is `http` or `https` and the hostname (empty when absent) is not a
loopback/localhost alias, does not start with `10.`, `192.168.` or `172.`
(all of `172.0.0.0/8`, a superset of `172.16.0.0/12`), is non-empty, and
contains a dot. -/
theorem validate_feed_url_characterization (u : ParsedUrl) :
    validate_feed_url u =
      (ALLOWED_SCHEMES.contains (pyLower u.scheme)
        && !(BLOCKED_HOSTS.contains (pyLower (u.hostname.getD "")))
        && !(pyStartsWith (u.hostname.getD "") "10.")
        && !(pyStartsWith (u.hostname.getD "") "192.168.")
        && !(pyStartsWith (u.hostname.getD "") "172.")
        && !(u.hostname.getD "" == "")
        && pyContainsChar (u.hostname.getD "") '.') := by
  unfold validate_feed_url
  cases h1 : ALLOWED_SCHEMES.contains (pyLower u.scheme) <;>
    cases h2 : BLOCKED_HOSTS.contains (pyLower (u.hostname.getD "")) <;>
      cases h3 : pyStartsWith (u.hostname.getD "") "10." <;>
        cases h4 : pyStartsWith (u.hostname.getD "") "192.168." <;>
          cases h5 : pyStartsWith (u.hostname.getD "") "172." <;>
            cases h6 : u.hostname.getD "" == "" <;>
              cases h7 : pyContainsChar (u.hostname.getD "") '.' <;>
                simp_all [List.contains, List.elem_iff]

/-! ## Persistent job record (`app/db/repository.py`, `app/models/schemas.py`)

One row of the `episodes` table, restricted to the columns the claims are
about.  `ProcessingStatus` lists the stages of the pipeline state machine. -/

inductive ProcessingStatus where
  | pending | downloading | transcribing | diarizing
  | cleaning | summarizing | completed | failed
deriving DecidableEq, Repr

/-- A transcript segment.  The source stores dictionaries with keys
`start`, `end`, `text`, `speaker` and, after speaker identification,
`speaker_label` and `speaker_gender`; `end` is a Lean keyword, written
`«end»` here. -/
structure Segment where
  start : ℚ
  «end» : ℚ
  text : String
  speaker : Option String
  speaker_label : Option String
  speaker_gender : Option String
deriving DecidableEq, Repr

structure Episode where
  status : ProcessingStatus
  progress : Int
  error : Option String
  status_message : Option String
  checkpoint_stage : Option String
  transcript : Option (List Segment)
  cleaned_transcript : Option String
  summary : Option String
deriving DecidableEq, Repr

/-- Embedding of `update_episode_status` (repository.py lines 243-277): the
dynamic `UPDATE` always writes `status` and `progress`, and writes `error`,
`status_message` and `checkpoint_stage` only when the corresponding
argument is not `None`. -/
def update_episode_status (e : Episode) (status : ProcessingStatus) (progress : Int)
    (error status_message checkpoint_stage : Option String) : Episode :=
  { e with
    status := status
    progress := progress
    error := match error with
      | some m => some m
      | none => e.error
    status_message := match status_message with
      | some m => some m
      | none => e.status_message
    checkpoint_stage := match checkpoint_stage with
      | some c => some c
      | none => e.checkpoint_stage }

/-- Embedding of `update_episode_transcript` (repository.py lines 302-327):
persists the transcript and cleaned text and writes the checkpoint marker
`"transcribed"`. -/
def update_episode_transcript (e : Episode) (transcript : List Segment)
    (cleaned : String) : Episode :=
  { e with
    transcript := some transcript
    cleaned_transcript := some cleaned
    checkpoint_stage := some "transcribed" }

/-- Embedding of `update_episode_summary` (repository.py lines 330-351):
persists the summary and writes the checkpoint marker `"summarized"`. -/
def update_episode_summary (e : Episode) (summary : String) : Episode :=
  { e with summary := some summary, checkpoint_stage := some "summarized" }

/-- The `except` handler of `process_episode` (episodes.py lines 176-177):
`update_status(episode_id, ProcessingStatus.FAILED, error=str(e))`, where
`update_status` (lines 32-43) passes `progress = 0`, `message = None` and
`checkpoint = None` through to `update_episode_status`. -/
def process_episode_failure_update (e : Episode) (msg : String) : Episode :=
  update_episode_status e .failed 0 (some msg) none none

/-- C1: if the pipeline fails after `update_episode_transcript` persisted
the transcript (e.g. during summarization), the failure handler marks the
job failed and records the exception message, while the `"transcribed"`
checkpoint marker, the stored transcript and the cleaned transcript are
left exactly as the transcript write put them — nothing is rolled back. -/
theorem failure_after_transcript_keeps_artifacts
    (e : Episode) (t : List Segment) (c : String) (msg : String) :
    (process_episode_failure_update (update_episode_transcript e t c) msg).status
        = .failed
    ∧ (process_episode_failure_update (update_episode_transcript e t c) msg).error
        = some msg
    ∧ (process_episode_failure_update (update_episode_transcript e t c) msg).checkpoint_stage
        = some "transcribed"
    ∧ (process_episode_failure_update (update_episode_transcript e t c) msg).transcript
        = some t
    ∧ (process_episode_failure_update (update_episode_transcript e t c) msg).cleaned_transcript
        = some c := by
  refine ⟨rfl, rfl, rfl, rfl, rfl⟩

/-- C10: whatever the state of the episode row when a pipeline run fails,
the failure update writes status `failed`, the exception message, and
progress `0` (the `update_status` default), so a failed job's stored
progress is always `0`. -/
theorem failure_update_resets_progress (e : Episode) (msg : String) :
    (process_episode_failure_update e msg).progress = 0
    ∧ (process_episode_failure_update e msg).status = .failed
    ∧ (process_episode_failure_update e msg).error = some msg := by
  refine ⟨rfl, rfl, rfl⟩

/-! ## Pipeline progress writes (`app/routers/episodes.py` lines 46-174,
`app/services/transcription.py` lines 59-105)

The status/progress pairs a successful `process_episode` run writes to the
job row, in program order.  The transcription poll loop reports a simulated
progress value computed from the elapsed wall-clock time at each poll; the
elapsed times at successive polls form the parameter `ts`.  (The source
fires the callback update through `asyncio.create_task`; the model takes
the single-threaded event loop to apply those writes in order, the known
ordering hazard being out of scope of this embedding.) -/

/-- `estimated_seconds` (transcription.py lines 63-64):
`duration_mins = (duration_seconds / 60) if duration_seconds else 10`,
`estimated_seconds = duration_mins * 2.5 * 60`. -/
def estimatedSeconds (duration_seconds : Option ℚ) : ℚ :=
  let duration_mins : ℚ :=
    match duration_seconds with
    | none => 10
    | some d => if d = 0 then 10 else d / 60
  duration_mins * (5/2) * 60

/-- `simulated_progress` (transcription.py lines 87-88):
`30 + int(min(elapsed / estimated_seconds, 0.95) * 25)`; `int` truncation
on a non-negative value is the floor. -/
def simulatedProgress (est elapsed : ℚ) : Int :=
  30 + ⌊min (elapsed / est) (19/20) * 25⌋

/-- The `(status, progress)` pairs written by one successful
`process_episode` run (episodes.py lines 56-174), starting from the
`(pending, 0)` state that `create_episode` (repository.py lines 232-239)
gives the row. -/
def successRunWrites (duration : Option ℚ) (ts : List ℚ) :
    List (ProcessingStatus × Int) :=
  [(.pending, 0), (.downloading, 10), (.transcribing, 30)]
    ++ ts.map (fun t => (.transcribing, simulatedProgress (estimatedSeconds duration) t))
    ++ [(.transcribing, 55), (.diarizing, 60), (.cleaning, 70),
        (.summarizing, 85), (.completed, 100)]

lemma estimatedSeconds_pos (duration : Option ℚ) (hd : 0 ≤ duration.getD 0) :
    0 < estimatedSeconds duration := by
  unfold estimatedSeconds
  match duration with
  | none => norm_num
  | some d =>
    simp only [Option.getD] at hd
    by_cases h0 : d = 0
    · simp [h0]
    · have hdpos : 0 < d := lt_of_le_of_ne hd (Ne.symm h0)
      simp only [h0, if_false]
      positivity

lemma simulatedProgress_mono {est : ℚ} (hest : 0 < est) {t t' : ℚ} (h : t ≤ t') :
    simulatedProgress est t ≤ simulatedProgress est t' := by
  unfold simulatedProgress
  have : t / est ≤ t' / est := by gcongr
  have : min (t / est) (19/20) * 25 ≤ min (t' / est) (19/20) * 25 := by gcongr
  exact add_le_add_left (Int.floor_le_floor this) 30

lemma simulatedProgress_le_53 (est t : ℚ) : simulatedProgress est t ≤ 53 := by
  unfold simulatedProgress
  have h1 : min (t / est) (19/20) * 25 ≤ (19/20) * 25 := by
    have := min_le_right (t / est) ((19:ℚ)/20)
    nlinarith
  have h2 : ⌊min (t / est) ((19:ℚ)/20) * 25⌋ ≤ ⌊((19:ℚ)/20) * 25⌋ :=
    Int.floor_le_floor h1
  have h3 : ⌊((19:ℚ)/20) * 25⌋ = 23 := by norm_num [Int.floor_eq_iff]
  omega

lemma simulatedProgress_ge_30 {est t : ℚ} (hest : 0 < est) (ht : 0 ≤ t) :
    30 ≤ simulatedProgress est t := by
  unfold simulatedProgress
  have h1 : (0:ℚ) ≤ min (t / est) (19/20) * 25 := by
    have : (0:ℚ) ≤ t / est := by positivity
    have : (0:ℚ) ≤ min (t / est) (19/20) := le_min this (by norm_num)
    nlinarith
  have := Int.floor_nonneg.mpr h1
  omega

lemma destutter'_replicate_transcribing (n : Nat) (l : List ProcessingStatus) :
    List.destutter' (· ≠ ·) ProcessingStatus.transcribing
        (List.replicate n ProcessingStatus.transcribing ++ l)
      = List.destutter' (· ≠ ·) ProcessingStatus.transcribing l := by
  induction n with
  | zero => rfl
  | succ n ih =>
    rw [List.replicate_succ, List.cons_append,
      List.destutter'_cons_neg _
        (show ¬(ProcessingStatus.transcribing ≠ ProcessingStatus.transcribing) from
          by simp)]
    exact ih

/-- C2: in a successful pipeline run the progress values written to the job
row — 0 on creation, 10 (downloading), 30 (transcription start), the
callback values, 55 (transcription complete), 60, 70, 85, 100 — form a
non-decreasing sequence, and the stage column steps through pending,
downloading, transcribing, diarizing, cleaning, summarizing, completed in
that order (adjacent repetitions collapsed).  Hypotheses: the audio
duration is non-negative and the elapsed poll times are non-negative and
non-decreasing. -/
theorem successRun_progress_monotone_stages_in_order (duration : Option ℚ) (ts : List ℚ)
    (hd : 0 ≤ duration.getD 0) (hts : List.Chain' (· ≤ ·) ts)
    (hpos : ∀ t ∈ ts, 0 ≤ t) :
    List.Chain' (fun a b => a.2 ≤ b.2) (successRunWrites duration ts)
    ∧ ((successRunWrites duration ts).map Prod.fst).destutter (· ≠ ·)
        = [.pending, .downloading, .transcribing, .diarizing, .cleaning,
           .summarizing, .completed] := by
  have hest : 0 < estimatedSeconds duration := estimatedSeconds_pos duration hd
  constructor
  · unfold successRunWrites
    rw [List.append_assoc, List.chain'_append]
    refine ⟨?_, ?_, ?_⟩
    · simp [List.chain'_cons]
    · rw [List.chain'_append]
      refine ⟨?_, ?_, ?_⟩
      · rw [List.chain'_map]
        exact hts.imp fun a b hab => simulatedProgress_mono hest hab
      · simp [List.chain'_cons]
      · intro x hx y hy
        have hx' := List.mem_of_mem_getLast? hx
        obtain ⟨t, ht, rfl⟩ := List.mem_map.mp hx'
        simp only [List.head?_cons, Option.mem_def, Option.some.injEq] at hy
        subst hy
        calc simulatedProgress (estimatedSeconds duration) t
            ≤ 53 := simulatedProgress_le_53 _ _
          _ ≤ (55:Int) := by norm_num
    · intro x hx y hy
      simp only [List.getLast?_cons_cons, List.getLast?_singleton,
        Option.mem_def, Option.some.injEq] at hx
      subst hx
      cases ts with
      | nil =>
        simp only [List.map_nil, List.nil_append, List.head?_cons,
          Option.mem_def, Option.some.injEq] at hy
        subst hy
        norm_num
      | cons t ts' =>
        simp only [List.map_cons, List.cons_append, List.head?_cons,
          Option.mem_def, Option.some.injEq] at hy
        subst hy
        exact simulatedProgress_ge_30 hest (hpos t (by simp))
  · have hmapfst : (successRunWrites duration ts).map Prod.fst
        = ProcessingStatus.pending :: ProcessingStatus.downloading
            :: ProcessingStatus.transcribing
            :: (List.replicate ts.length ProcessingStatus.transcribing
              ++ [ProcessingStatus.transcribing, .diarizing, .cleaning,
                  .summarizing, .completed]) := by
      simp [successRunWrites, Function.comp_def]
    rw [hmapfst, List.destutter_cons_cons,
      if_pos (show ProcessingStatus.pending ≠ ProcessingStatus.downloading from
        by simp)]
    rw [List.destutter'_cons_pos _
      (show ProcessingStatus.downloading ≠ ProcessingStatus.transcribing from
        by simp)]
    rw [destutter'_replicate_transcribing]
    rw [List.destutter'_cons_neg _
      (show ¬(ProcessingStatus.transcribing ≠ ProcessingStatus.transcribing) from
        by simp)]
    rw [List.destutter'_cons_pos _
      (show ProcessingStatus.transcribing ≠ ProcessingStatus.diarizing from by simp)]
    rw [List.destutter'_cons_pos _
      (show ProcessingStatus.diarizing ≠ ProcessingStatus.cleaning from by simp)]
    rw [List.destutter'_cons_pos _
      (show ProcessingStatus.cleaning ≠ ProcessingStatus.summarizing from by simp)]
    rw [List.destutter'_cons_pos _
      (show ProcessingStatus.summarizing ≠ ProcessingStatus.completed from by simp)]
    rfl

/-- Witness for C2 at duration 600 s and two polls at 30 s and 60 s. -/
theorem successRun_progress_witness :
    List.Chain' (fun a b => a.2 ≤ b.2) (successRunWrites (some 600) [30, 60])
    ∧ ((successRunWrites (some 600) [30, 60]).map Prod.fst).destutter (· ≠ ·)
        = [.pending, .downloading, .transcribing, .diarizing, .cleaning,
           .summarizing, .completed] :=
  successRun_progress_monotone_stages_in_order (some 600) [30, 60]
    (by norm_num) (by norm_num [List.chain'_cons]) (by norm_num)

/-! ## Feed fetcher ordering and limit
(`app/services/subscription_checker.py`, lines 157-247)

After parsing, `fetch_rss_feed` sorts the candidate episodes by
`ep.get('publish_date') or ''` in reverse (a stable descending sort, so
entries with a missing date sort last) and slices to `limit` only when
`limit is not None and limit > 0`. -/

/-- A candidate episode as built by `fetch_rss_feed` (lines 230-236). -/
structure CandidateEpisode where
  guid : String
  title : String
  audio_url : String
  publish_date : Option String
  duration_seconds : Option ℚ
deriving DecidableEq, Repr

/-- The sort key `ep.get('publish_date') or ''` (line 240). -/
def sortKey (ep : CandidateEpisode) : String := ep.publish_date.getD ""

/-- The sort-and-truncate tail of `fetch_rss_feed` (lines 238-247).
Python's `list.sort(key=..., reverse=True)` is a stable descending sort,
matching `mergeSort` with the flipped comparison. -/
def fetch_rss_feed_order_limit (episodes : List CandidateEpisode)
    (limit : Option Int) : List CandidateEpisode :=
  let sorted := episodes.mergeSort fun a b => decide (sortKey b ≤ sortKey a)
  match limit with
  | some l => if 0 < l then sorted.take l.toNat else sorted
  | none => sorted

def sampleEpisode : CandidateEpisode :=
  { guid := "g1", title := "t", audio_url := "a"
    publish_date := some "2024-01-01T00:00:00", duration_seconds := none }

/-- C5 counterexample: with the non-null limit `0` the guard
`limit is not None and limit > 0` is false, so no truncation happens and a
one-element feed yields one episode — not "at most 0" as the claim's
universal quantification over non-null limits requires. -/
theorem fetch_rss_feed_limit_zero_counterexample :
    (fetch_rss_feed_order_limit [sampleEpisode] (some 0)).length = 1
    ∧ ¬ ((fetch_rss_feed_order_limit [sampleEpisode] (some 0)).length ≤ 0) := by
  have h : fetch_rss_feed_order_limit [sampleEpisode] (some 0) = [sampleEpisode] := by
    unfold fetch_rss_feed_order_limit
    simp
  rw [h]
  simp

/-- C5 amended: for a positive limit `N` the result has at most `N`
episodes; the result is always sorted by publish date descending with
missing dates (key `""`) last; with limit `None` (and likewise any
non-positive limit, which the guard treats the same way) the result is a
permutation of all candidate episodes. -/
theorem fetch_rss_feed_sorted_and_limited (episodes : List CandidateEpisode)
    (limit : Option Int) :
    (∀ l : Int, limit = some l → 0 < l →
        (fetch_rss_feed_order_limit episodes limit).length ≤ l.toNat)
    ∧ List.Pairwise (fun a b => sortKey b ≤ sortKey a)
        (fetch_rss_feed_order_limit episodes limit)
    ∧ (limit = none → (fetch_rss_feed_order_limit episodes limit).Perm episodes) := by
  have hsorted : List.Pairwise (fun a b => sortKey b ≤ sortKey a)
      (episodes.mergeSort fun a b => decide (sortKey b ≤ sortKey a)) := by
    have h := @List.sorted_mergeSort CandidateEpisode
      (fun a b => decide (sortKey b ≤ sortKey a))
      (fun a b c hab hbc => by
        simp only [decide_eq_true_eq] at hab hbc ⊢
        exact le_trans hbc hab)
      (fun a b => by
        simp only [Bool.or_eq_true, decide_eq_true_eq]
        exact le_total (sortKey b) (sortKey a))
      episodes
    exact h.imp fun hab => by simpa using hab
  refine ⟨?_, ?_, ?_⟩
  · intro l hl hpos
    subst hl
    unfold fetch_rss_feed_order_limit
    simp only [if_pos hpos]
    exact List.length_take_le _ _
  · unfold fetch_rss_feed_order_limit
    cases limit with
    | none => exact hsorted
    | some l =>
      by_cases hpos : 0 < l
      · simp only [if_pos hpos]
        exact List.Pairwise.sublist (List.take_sublist _ _) hsorted
      · simp only [if_neg hpos]
        exact hsorted
  · intro hl
    subst hl
    exact List.mergeSort_perm episodes _

/-- Witness for the amended C5 at a singleton feed and limit 1. -/
theorem fetch_rss_feed_sorted_and_limited_witness :
    (fetch_rss_feed_order_limit [sampleEpisode] (some 1)).length ≤ (1:Int).toNat :=
  (fetch_rss_feed_sorted_and_limited [sampleEpisode] (some 1)).1 1 rfl (by norm_num)

/-! ## Subscription ledger
(`subscription_episodes` table; callers in `app/services/subscription_checker.py`
and `app/routers/subscriptions.py`)

The data-access functions for this table are not part of the provided
sources — only their callers and their tests are — so they are modelled
from the specification (§3 "Subscription episode (ledger entry)", §4.4,
§4.5) and from the column names pinned by `test_repository.py`. -/

structure LedgerEntry where
  id : Nat
  subscription_id : String
  episode_guid : String
  status : String
  episode_id : Option String
deriving DecidableEq, Repr

structure Ledger where
  entries : List LedgerEntry
  nextId : Nat
deriving DecidableEq, Repr

/-- The deduplication pairs of a ledger, one per entry. -/
def ledgerPairs (st : Ledger) : List (String × String) :=
  st.entries.map fun e => (e.subscription_id, e.episode_guid)

/-- Modelled from the spec: `repository.check_episode_exists` is absent
from the provided sources.  Per §3 the dedup key of a ledger entry is the
(subscription id, GUID) pair, so existence is membership of that pair. -/
def check_episode_exists (st : Ledger) (subscription_id episode_guid : String) :
    Bool :=
  st.entries.any fun e =>
    e.subscription_id == subscription_id && e.episode_guid == episode_guid

/-- Modelled from the spec: `repository.create_subscription_episode` is
absent from the provided sources.  Per §4.4 a newly discovered feed item is
inserted as a new `pending` ledger entry; the fresh row id is returned. -/
def create_subscription_episode (st : Ledger) (subscription_id : String)
    (ep : CandidateEpisode) : Nat × Ledger :=
  (st.nextId,
    { entries := st.entries
        ++ [{ id := st.nextId, subscription_id := subscription_id
              episode_guid := ep.guid, status := "pending", episode_id := none }]
      nextId := st.nextId + 1 })

/-- The store loop of `check_subscription_for_new_episodes`
(subscription_checker.py lines 307-321): insert each fetched episode whose
(subscription id, GUID) pair is not yet present, accumulating the count and
the ids of the newly stored entries in feed order. -/
def storeNewEpisodes (subscription_id : String) (eps : List CandidateEpisode)
    (st : Ledger) : Ledger × Nat × List Nat :=
  match eps with
  | [] => (st, 0, [])
  | ep :: rest =>
    if check_episode_exists st subscription_id ep.guid then
      storeNewEpisodes subscription_id rest st
    else
      let st1 := (create_subscription_episode st subscription_id ep).2
      let epId := (create_subscription_episode st subscription_id ep).1
      let r := storeNewEpisodes subscription_id rest st1
      (r.1, r.2.1 + 1, epId :: r.2.2)

lemma check_episode_exists_create (st : Ledger) (sid : String)
    (ep : CandidateEpisode) {s g : String}
    (h : check_episode_exists st s g = true) :
    check_episode_exists (create_subscription_episode st sid ep).2 s g = true := by
  simp only [check_episode_exists, create_subscription_episode, List.any_append,
    Bool.or_eq_true] at h ⊢
  exact Or.inl h

lemma check_episode_exists_mono (sid : String) (eps : List CandidateEpisode) :
    ∀ (st : Ledger) {s g : String}, check_episode_exists st s g = true →
      check_episode_exists (storeNewEpisodes sid eps st).1 s g = true := by
  induction eps with
  | nil => intro st s g h; exact h
  | cons ep rest ih =>
    intro st s g h
    simp only [storeNewEpisodes]
    by_cases hc : check_episode_exists st sid ep.guid = true
    · simp only [hc, if_true]
      exact ih st h
    · simp only [hc, if_false]
      exact ih _ (check_episode_exists_create st sid ep h)

lemma check_episode_exists_after_store (sid : String) (eps : List CandidateEpisode) :
    ∀ (st : Ledger), ∀ ep ∈ eps,
      check_episode_exists (storeNewEpisodes sid eps st).1 sid ep.guid = true := by
  induction eps with
  | nil => intro st ep h; cases h
  | cons ep0 rest ih =>
    intro st ep hep
    simp only [storeNewEpisodes]
    rcases List.mem_cons.mp hep with rfl | htail
    · by_cases hc : check_episode_exists st sid ep.guid = true
      · simp only [hc, if_true]
        exact check_episode_exists_mono sid rest st hc
      · simp only [hc, if_false]
        refine check_episode_exists_mono sid rest _ ?_
        simp [check_episode_exists, create_subscription_episode]
    · by_cases hc : check_episode_exists st sid ep0.guid = true
      · simp only [hc, if_true]
        exact ih st ep htail
      · simp only [hc, if_false]
        exact ih _ ep htail

lemma storeNewEpisodes_of_all_exist (sid : String) (eps : List CandidateEpisode) :
    ∀ (st : Ledger), (∀ ep ∈ eps, check_episode_exists st sid ep.guid = true) →
      storeNewEpisodes sid eps st = (st, 0, []) := by
  induction eps with
  | nil => intro st _; rfl
  | cons ep rest ih =>
    intro st h
    have hc : check_episode_exists st sid ep.guid = true := h ep (by simp)
    simp only [storeNewEpisodes, hc, if_true]
    exact ih st fun e he => h e (List.mem_cons_of_mem _ he)

lemma ledgerPairs_create (st : Ledger) (sid : String) (ep : CandidateEpisode) :
    ledgerPairs (create_subscription_episode st sid ep).2
      = ledgerPairs st ++ [(sid, ep.guid)] := by
  simp [ledgerPairs, create_subscription_episode]

lemma pair_not_mem_of_check_false {st : Ledger} {sid g : String}
    (h : ¬ check_episode_exists st sid g = true) :
    (sid, g) ∉ ledgerPairs st := by
  intro hmem
  obtain ⟨e, he, heq⟩ := List.mem_map.mp hmem
  apply h
  simp only [check_episode_exists, List.any_eq_true]
  refine ⟨e, he, ?_⟩
  simp only [Prod.mk.injEq] at heq
  simp [heq.1, heq.2]

lemma storeNewEpisodes_pairs_nodup (sid : String) (eps : List CandidateEpisode) :
    ∀ (st : Ledger), (ledgerPairs st).Nodup →
      (ledgerPairs (storeNewEpisodes sid eps st).1).Nodup := by
  induction eps with
  | nil => intro st h; exact h
  | cons ep rest ih =>
    intro st h
    simp only [storeNewEpisodes]
    by_cases hc : check_episode_exists st sid ep.guid = true
    · simp only [hc, if_true]
      exact ih st h
    · simp only [hc, if_false]
      apply ih
      rw [ledgerPairs_create]
      simp only [List.nodup_append, List.nodup_cons, List.nodup_nil,
        List.disjoint_singleton]
      exact ⟨h, by simp, by simpa using pair_not_mem_of_check_false hc⟩

/-- C6: starting from any ledger whose (subscription id, GUID) pairs are
distinct, a fetch-and-store cycle keeps them distinct, and a second cycle
over episodes carrying the same GUIDs (in any order, with repeats allowed)
stores nothing: zero new entries, no new ids, ledger unchanged. -/
theorem ledger_guid_pairs_never_duplicated (sid : String)
    (eps1 eps2 : List CandidateEpisode) (st : Ledger)
    (hnd : (ledgerPairs st).Nodup)
    (hguids : ∀ ep ∈ eps2, ∃ ep' ∈ eps1, ep'.guid = ep.guid) :
    (ledgerPairs (storeNewEpisodes sid eps1 st).1).Nodup
    ∧ storeNewEpisodes sid eps2 (storeNewEpisodes sid eps1 st).1
        = ((storeNewEpisodes sid eps1 st).1, 0, []) := by
  refine ⟨storeNewEpisodes_pairs_nodup sid eps1 st hnd, ?_⟩
  apply storeNewEpisodes_of_all_exist
  intro ep hep
  obtain ⟨ep', hep', hg⟩ := hguids ep hep
  rw [← hg]
  exact check_episode_exists_after_store sid eps1 st ep' hep'

def epA : CandidateEpisode :=
  { guid := "guid-a", title := "A", audio_url := "http://feeds.example.com/a.mp3"
    publish_date := some "2024-02-01T00:00:00", duration_seconds := none }

def epB : CandidateEpisode :=
  { guid := "guid-b", title := "B", audio_url := "http://feeds.example.com/b.mp3"
    publish_date := some "2024-01-01T00:00:00", duration_seconds := none }

/-- Witness for C6: an empty ledger, a first cycle storing two episodes,
then a second cycle over the same GUIDs in reversed order. -/
theorem ledger_guid_pairs_never_duplicated_witness :
    (ledgerPairs (storeNewEpisodes "sub1" [epA, epB] ⟨[], 1⟩).1).Nodup
    ∧ storeNewEpisodes "sub1" [epB, epA] (storeNewEpisodes "sub1" [epA, epB] ⟨[], 1⟩).1
        = ((storeNewEpisodes "sub1" [epA, epB] ⟨[], 1⟩).1, 0, []) :=
  ledger_guid_pairs_never_duplicated "sub1" [epA, epB] [epB, epA] ⟨[], 1⟩
    (by decide) (by decide)

/-! ## Stuck-episode recovery (`app/routers/subscriptions.py` lines 401-436) -/

/-- Modelled from the spec: `repository.get_stuck_subscription_episodes` is
absent from the provided sources; its tests (`test_repository.py`) pin the
SQL filters `subscription_id = ?`, `status = 'processing'` and
`episode_id IS NULL`. -/
def get_stuck_subscription_episodes (st : Ledger) (subscription_id : String) :
    List LedgerEntry :=
  st.entries.filter fun e =>
    e.subscription_id == subscription_id && e.status == "processing"
      && e.episode_id.isNone

/-- Modelled from the spec: `repository.update_subscription_episode_status`
is absent from the provided sources.  It sets the status of the rows with
the given ids and, when a `linked_episode_id` is passed (as in
`process_subscription_episodes`), also links that Job id. -/
def update_subscription_episode_status (st : Ledger) (ids : List Nat)
    (status : String) (linked_episode_id : Option String) : Ledger :=
  { st with
    entries := st.entries.map fun e =>
      if e.id ∈ ids then
        { e with
          status := status
          episode_id := match linked_episode_id with
            | some l => some l
            | none => e.episode_id }
      else e }

/-- Embedding of the `reset-stuck` route handler (subscriptions.py lines
401-436) after the subscription-ownership lookup: collect the stuck entries
of the subscription and reset them to `pending`; when none are stuck no
update statement runs and the reset count is 0. -/
def reset_stuck_episodes (st : Ledger) (subscription_id : String) : Ledger × Nat :=
  let stuck := get_stuck_subscription_episodes st subscription_id
  if stuck = [] then (st, 0)
  else
    (update_subscription_episode_status st (stuck.map fun e => e.id) "pending" none,
      stuck.length)

lemma stuck_id_mem_iff {st : Ledger} {sid : String}
    (hnd : (st.entries.map fun e => e.id).Nodup)
    {e : LedgerEntry} (he : e ∈ st.entries) :
    (e.id ∈ (get_stuck_subscription_episodes st sid).map fun e => e.id)
      ↔ (e.subscription_id = sid ∧ e.status = "processing" ∧ e.episode_id = none) := by
  constructor
  · intro hmem
    obtain ⟨e', he', heq⟩ := List.mem_map.mp hmem
    have hf := List.mem_filter.mp he'
    have : e' = e := List.inj_on_of_nodup_map hnd hf.1 he heq
    subst this
    have := hf.2
    simp only [Bool.and_eq_true, beq_iff_eq, Option.isNone_iff_eq_none] at this
    exact ⟨this.1.1, this.1.2, this.2⟩
  · intro hcond
    refine List.mem_map.mpr ⟨e, List.mem_filter.mpr ⟨he, ?_⟩, rfl⟩
    simp [hcond.1, hcond.2.1, hcond.2.2]

/-- C7: the reset-stuck operation rewrites exactly the ledger entries of
the target subscription with status `processing` and no linked Job id,
setting their status to `pending`; every other entry — including
`processing` entries that do have a linked Job id — is returned unchanged,
in place.  The hypothesis is the ledger's row-id uniqueness invariant. -/
theorem reset_stuck_resets_exactly_stuck (st : Ledger) (sid : String)
    (hnd : (st.entries.map fun e => e.id).Nodup) :
    (reset_stuck_episodes st sid).1.entries
      = st.entries.map fun e =>
          if e.subscription_id = sid ∧ e.status = "processing" ∧ e.episode_id = none
          then { e with status := "pending" } else e := by
  unfold reset_stuck_episodes
  by_cases hempty : get_stuck_subscription_episodes st sid = []
  · rw [if_pos hempty]
    have hnone : ∀ e ∈ st.entries,
        ¬(e.subscription_id = sid ∧ e.status = "processing" ∧ e.episode_id = none) := by
      intro e he hcond
      have : e ∈ get_stuck_subscription_episodes st sid :=
        List.mem_filter.mpr ⟨he, by simp [hcond.1, hcond.2.1, hcond.2.2]⟩
      rw [hempty] at this
      cases this
    symm
    calc st.entries.map (fun e =>
          if e.subscription_id = sid ∧ e.status = "processing" ∧ e.episode_id = none
          then { e with status := "pending" } else e)
        = st.entries.map id :=
          List.map_congr_left fun e he => if_neg (hnone e he)
      _ = st.entries := List.map_id _
  · rw [if_neg hempty]
    unfold update_subscription_episode_status
    apply List.map_congr_left
    intro e he
    by_cases hcond :
        e.subscription_id = sid ∧ e.status = "processing" ∧ e.episode_id = none
    · rw [if_pos ((stuck_id_mem_iff hnd he).mpr hcond), if_pos hcond]
    · rw [if_neg (fun h => hcond ((stuck_id_mem_iff hnd he).mp h)), if_neg hcond]

def stuckEntry : LedgerEntry :=
  { id := 1, subscription_id := "sub1", episode_guid := "g1"
    status := "processing", episode_id := none }

def linkedEntry : LedgerEntry :=
  { id := 2, subscription_id := "sub1", episode_guid := "g2"
    status := "processing", episode_id := some "job-2" }

def pendingEntry : LedgerEntry :=
  { id := 3, subscription_id := "sub1", episode_guid := "g3"
    status := "pending", episode_id := none }

/-- Witness for C7 on a three-entry ledger: one stuck entry, one
`processing` entry with a linked Job, one `pending` entry. -/
theorem reset_stuck_resets_exactly_stuck_witness :
    (reset_stuck_episodes ⟨[stuckEntry, linkedEntry, pendingEntry], 4⟩ "sub1").1.entries
      = [stuckEntry, linkedEntry, pendingEntry].map fun e =>
          if e.subscription_id = "sub1" ∧ e.status = "processing" ∧ e.episode_id = none
          then { e with status := "pending" } else e :=
  reset_stuck_resets_exactly_stuck ⟨[stuckEntry, linkedEntry, pendingEntry], 4⟩ "sub1"
    (by decide)

/-! ## Batch processing (`app/routers/subscriptions.py` lines 25-29, 286-337)

The handler state is the ledger plus the subscription rows and a record of
launched background batches; the handler returns either an HTTP error
status or the processed count, together with the (possibly updated)
state. -/

/-- `MAX_BATCH_SIZE = 19` (subscriptions.py line 29). -/
def MAX_BATCH_SIZE : Nat := 19

structure SubscriptionRow where
  id : String
  user_id : String
  podcast_name : String
deriving DecidableEq, Repr

structure World where
  subs : List SubscriptionRow
  ledger : Ledger
  launched : List (List Nat)
deriving DecidableEq, Repr

/-- Modelled from the spec: `repository.get_subscription` is absent from
the provided sources; it is the owner-scoped row lookup used by every
subscription route. -/
def get_subscription (w : World) (subscription_id user_id : String) :
    Option SubscriptionRow :=
  w.subs.find? fun s => s.id == subscription_id && s.user_id == user_id

/-- Modelled from the spec: `repository.get_subscription_episodes_by_ids`
is absent from the provided sources; it returns the ledger rows with the
given ids. -/
def get_subscription_episodes_by_ids (w : World) (ids : List Nat) :
    List LedgerEntry :=
  w.ledger.entries.filter fun e => ids.contains e.id

/-- Embedding of `batch_process_episodes` (subscriptions.py lines 286-337):
404 when the subscription is not owned, 400 when more than
`MAX_BATCH_SIZE` ids or none are given, 400 when no given id is a pending
episode of this subscription; only then are the valid episodes marked
`processing` and the background batch launched.  The returned `World` is
the state after the handler. -/
def batch_process_episodes (w : World) (subscription_id user_id : String)
    (episode_ids : List Nat) : Except Nat Nat × World :=
  match get_subscription w subscription_id user_id with
  | none => (.error 404, w)
  | some _ =>
    if MAX_BATCH_SIZE < episode_ids.length then (.error 400, w)
    else if episode_ids = [] then (.error 400, w)
    else
      let all_episodes := get_subscription_episodes_by_ids w episode_ids
      let valid_episodes := all_episodes.filter fun e =>
        e.subscription_id == subscription_id && e.status == "pending"
      if valid_episodes = [] then (.error 400, w)
      else
        let ids := valid_episodes.map fun e => e.id
        let ledger1 := update_subscription_episode_status w.ledger ids "processing" none
        (.ok valid_episodes.length,
          { w with ledger := ledger1, launched := w.launched ++ [ids] })

/-- C8: for an owned subscription, an empty id list and a list of more than
19 ids are both rejected with a validation error (HTTP 400), and the state
is returned untouched: no ledger entry changes status, nothing is
launched. -/
theorem batch_process_rejects_bad_sizes_without_side_effects
    (w : World) (subscription_id user_id : String) (episode_ids : List Nat)
    (hfound : (get_subscription w subscription_id user_id).isSome)
    (hbad : episode_ids = [] ∨ MAX_BATCH_SIZE < episode_ids.length) :
    batch_process_episodes w subscription_id user_id episode_ids = (.error 400, w) := by
  unfold batch_process_episodes
  obtain ⟨row, hrow⟩ := Option.isSome_iff_exists.mp hfound
  rw [hrow]
  rcases hbad with hempty | hlong
  · subst hempty
    simp
  · rw [if_pos hlong]

def world0 : World :=
  { subs := [{ id := "sub1", user_id := "user1", podcast_name := "P" }]
    ledger := ⟨[pendingEntry], 4⟩
    launched := [] }

/-- Witness for C8: the empty list and a 20-id list are both rejected with
status 400 and an unchanged world. -/
theorem batch_process_rejects_bad_sizes_witness :
    batch_process_episodes world0 "sub1" "user1" [] = (.error 400, world0)
    ∧ batch_process_episodes world0 "sub1" "user1" (List.range 20)
        = (.error 400, world0) :=
  ⟨batch_process_rejects_bad_sizes_without_side_effects world0 "sub1" "user1" []
      (by decide) (Or.inl rfl),
    batch_process_rejects_bad_sizes_without_side_effects world0 "sub1" "user1"
      (List.range 20) (by decide) (Or.inr (by decide))⟩

/-! ## Speaker rename
(`app/services/speaker_identification.py` lines 254-302,
`app/db/repository.py` lines 453-501) -/

/-- One value of the speaker map handed to `apply_speaker_names`:
`{"name": ..., "gender": ...}`. -/
structure SpeakerInfo where
  name : Option String
  gender : Option String
deriving DecidableEq, Repr

/-- Python falsy-`or` for optional strings: `a or b` with both `None` and
`""` falsy. -/
def pyOrStr (a b : Option String) : Option String :=
  match a with
  | some s => if s = "" then b else some s
  | none => b

/-- The gender-aware default display name branch of `apply_speaker_names`
(lines 281-290). -/
def genderDefaultName (lbl gender : String) : String :=
  if gender = "male" then "Speaker " ++ lbl ++ " (Male)"
  else if gender = "female" then "Speaker " ++ lbl ++ " (Female)"
  else "Speaker " ++ lbl

/-- One iteration of the `apply_speaker_names` loop (lines 267-300): a
falsy speaker leaves the copied segment unchanged; a label found in the map
gets the mapped (or gender-default) display name, the original label and
the gender; a label missing from the map gets `Speaker <label>` and gender
`unknown`. -/
def applySpeakerNamesSeg (m : List (String × SpeakerInfo)) (seg : Segment) :
    Segment :=
  match seg.speaker with
  | none => seg
  | some lbl =>
    if lbl = "" then seg
    else
      match m.lookup lbl with
      | some info =>
        { seg with
          speaker_label := some lbl
          speaker := some (match pyOrStr info.name none with
            | some n => n
            | none => genderDefaultName lbl (info.gender.getD "unknown"))
          speaker_gender := some (info.gender.getD "unknown") }
      | none =>
        { seg with
          speaker_label := some lbl
          speaker := some ("Speaker " ++ lbl)
          speaker_gender := some "unknown" }

/-- Embedding of `apply_speaker_names` (lines 254-302): an empty map
returns the segments as-is, otherwise every segment is rewritten in
order. -/
def apply_speaker_names (segments : List Segment)
    (m : List (String × SpeakerInfo)) : List Segment :=
  if m = [] then segments else segments.map (applySpeakerNamesSeg m)

/-- One iteration of the rename loop inside `update_episode_speakers`
(repository.py lines 477-480): `label = seg.get('speaker_label') or
seg.get('speaker')`; when the label is truthy and in the map, only the
`speaker` field is replaced. -/
def renameSpeakerSeg (m : List (String × String)) (seg : Segment) : Segment :=
  match pyOrStr seg.speaker_label seg.speaker with
  | none => seg
  | some lbl =>
    if lbl = "" then seg
    else
      match m.lookup lbl with
      | some newName => { seg with speaker := some newName }
      | none => seg

/-- The transcript rewrite performed by `update_episode_speakers`
(repository.py lines 474-480); the regenerated `cleaned_transcript` is a
separate column and does not touch the segments. -/
def update_episode_speakers_transcript (m : List (String × String))
    (transcript : List Segment) : List Segment :=
  transcript.map (renameSpeakerSeg m)

/-- The fields of a segment that the speaker-rename operations must
preserve: start, end, text. -/
def segCore (s : Segment) : ℚ × ℚ × String := (s.start, s.«end», s.text)

lemma segCore_applySpeakerNamesSeg (m : List (String × SpeakerInfo))
    (s : Segment) : segCore (applySpeakerNamesSeg m s) = segCore s := by
  unfold applySpeakerNamesSeg
  repeat' split <;> try rfl

lemma segCore_renameSpeakerSeg (m : List (String × String)) (s : Segment) :
    segCore (renameSpeakerSeg m s) = segCore s := by
  unfold renameSpeakerSeg
  repeat' split <;> try rfl

/-- C9: both speaker-rename operations — `apply_speaker_names` in the
pipeline and the transcript rewrite of `update_episode_speakers` — keep
the number and relative order of segments and leave every segment's start,
end and text unchanged; only the speaker display name, original label and
gender fields are ever modified (those are the only other fields a
segment has). -/
theorem speaker_rename_preserves_segments (segs : List Segment)
    (m : List (String × SpeakerInfo)) (m2 : List (String × String)) :
    (apply_speaker_names segs m).map segCore = segs.map segCore
    ∧ (apply_speaker_names segs m).length = segs.length
    ∧ (update_episode_speakers_transcript m2 segs).map segCore = segs.map segCore
    ∧ (update_episode_speakers_transcript m2 segs).length = segs.length := by
  have h1 : (apply_speaker_names segs m).map segCore = segs.map segCore := by
    unfold apply_speaker_names
    by_cases hm : m = []
    · rw [if_pos hm]
    · rw [if_neg hm, List.map_map]
      exact List.map_congr_left fun s _ => by
        simpa using segCore_applySpeakerNamesSeg m s
  have h2 : (update_episode_speakers_transcript m2 segs).map segCore
      = segs.map segCore := by
    unfold update_episode_speakers_transcript
    rw [List.map_map]
    exact List.map_congr_left fun s _ => by
      simpa using segCore_renameSpeakerSeg m2 s
  refine ⟨h1, ?_, h2, ?_⟩
  · have := congrArg List.length h1
    simpa using this
  · have := congrArg List.length h2
    simpa using this

/-! ## Polling engine (`app/services/subscription_checker.py` lines 250-507)

`check_all_active_subscriptions` gathers one check per active subscription
with `return_exceptions=True` and aggregates the per-subscription result
dicts.  The embedding is total: every exception path of the source is a
caught branch (`check_subscription_for_new_episodes` catches `ValueError`,
`httpx.HTTPError` and `Exception`; the outer handler of
`_check_single_subscription` catches the rest), which is the model of
"the poll never raises".  The feed outcome and the possibility that the
`last_checked_at` repository write raises are environment fields of the
subscription.  The semaphore and politeness delay only schedule the
checks; the aggregate counts do not depend on interleaving, so the checks
are threaded sequentially. -/

inductive FeedOutcome where
  | httpError
  | ok (entries : List CandidateEpisode)
deriving DecidableEq, Repr

structure Subscr where
  id : String
  user_id : String
  podcast_name : String
  feed_url : ParsedUrl
  feed : FeedOutcome
  update_raises : Option String
deriving DecidableEq, Repr

inductive FetchError where
  | valueError
  | httpError
deriving DecidableEq, Repr

/-- Embedding of the control flow of `fetch_rss_feed` (lines 157-247): a
`ValueError` when the SSRF guard rejects the URL before any network
access, a transport error when the GET fails, otherwise the parsed
episodes sorted and truncated to the default limit 100. -/
def fetch_rss_feed (s : Subscr) : Except FetchError (List CandidateEpisode) :=
  if !(validate_feed_url s.feed_url) then .error .valueError
  else
    match s.feed with
    | .httpError => .error .httpError
    | .ok eps => .ok (fetch_rss_feed_order_limit eps (some 100))

/-- Embedding of `check_subscription_for_new_episodes` (lines 294-329):
every exception from the fetch is caught and reported as zero new
episodes with an untouched ledger. -/
def check_subscription_for_new_episodes (s : Subscr) (st : Ledger) :
    (Nat × List Nat) × Ledger :=
  match fetch_rss_feed s with
  | .error _ => ((0, []), st)
  | .ok eps =>
    let r := storeNewEpisodes s.id eps st
    ((r.2.1, r.2.2), r.1)

/-- Embedding of `process_subscription_episodes` (lines 358-401) as its
ledger effect: each entry is marked `processing`, linked to the Job record
created for it (the uuid modelled deterministically from the row id), and
marked `completed`.  `process_episode` catches every pipeline exception
internally (episodes.py lines 176-177) and the loop body catches the rest
per entry, so no exception escapes. -/
def process_subscription_episodes_ledger (eps : List LedgerEntry) (st : Ledger) :
    Ledger :=
  eps.foldl
    (fun acc e =>
      let a1 := update_subscription_episode_status acc [e.id] "processing" none
      let a2 := update_subscription_episode_status a1 [e.id] "processing"
        (some ("job-" ++ toString e.id))
      update_subscription_episode_status a2 [e.id] "completed" none)
    st

/-- Embedding of `auto_process_episodes` (lines 332-355): fetch each ledger
row by id, keep the `pending` ones, process them. -/
def auto_process_episodes (ids : List Nat) (st : Ledger) : Ledger :=
  let eps := ids.filterMap fun i =>
    match st.entries.find? (fun e => e.id == i) with
    | some e => if e.status == "pending" then some e else none
    | none => none
  process_subscription_episodes_ledger eps st

structure CheckResult where
  subscription_id : String
  success : Bool
  new_episodes : Nat
  error : Option String
deriving DecidableEq, Repr

/-- Embedding of `_check_single_subscription` (lines 404-445).  The inner
check never raises; the remaining awaits inside the `try` are the
repository writes, whose failure is the environment field
`update_raises` — when it fires, the outer `except` records the message
and reports failure, and auto-processing is skipped. -/
def check_single_subscription (st : Ledger) (s : Subscr) : CheckResult × Ledger :=
  let r := check_subscription_for_new_episodes s st
  match s.update_raises with
  | some msg =>
    ({ subscription_id := s.id, success := false, new_episodes := 0
       error := some msg }, r.2)
  | none =>
    let st2 := if r.1.2 ≠ [] then auto_process_episodes r.1.2 r.2 else r.2
    ({ subscription_id := s.id, success := true, new_episodes := r.1.1
       error := none }, st2)

/-- The `asyncio.gather` of per-subscription checks (lines 465-477),
threaded sequentially. -/
def gatherChecks (subs : List Subscr) (st : Ledger) : List CheckResult × Ledger :=
  match subs with
  | [] => ([], st)
  | s :: rest =>
    let r := check_single_subscription st s
    let g := gatherChecks rest r.2
    (r.1 :: g.1, g.2)

structure PollResult where
  total : Nat
  checked : Nat
  new_episodes : Nat
  errors : Nat
deriving DecidableEq, Repr

/-- The aggregation loop of `check_all_active_subscriptions`
(lines 479-494): `checked`/`errors` tallies plus the new-episode sum. -/
def aggregateResults (results : List CheckResult) : Nat × Nat × Nat :=
  results.foldl
    (fun a r =>
      if r.success then (a.1 + 1, a.2.1 + r.new_episodes, a.2.2)
      else (a.1, a.2.1, a.2.2 + 1))
    (0, 0, 0)

/-- Embedding of `check_all_active_subscriptions` (lines 448-507). -/
def check_all_active_subscriptions (subs : List Subscr) (st : Ledger) :
    PollResult × Ledger :=
  if subs = [] then ({ total := 0, checked := 0, new_episodes := 0, errors := 0 }, st)
  else
    let g := gatherChecks subs st
    let agg := aggregateResults g.1
    ({ total := subs.length, checked := agg.1, new_episodes := agg.2.1
       errors := agg.2.2 }, g.2)

lemma check_single_subscription_success (st : Ledger) (s : Subscr) :
    (check_single_subscription st s).1.success = s.update_raises.isNone := by
  unfold check_single_subscription
  cases s.update_raises <;> rfl

lemma aggregateResults_go (results : List CheckResult) :
    ∀ a : Nat × Nat × Nat,
      results.foldl
          (fun a r =>
            if r.success then (a.1 + 1, a.2.1 + r.new_episodes, a.2.2)
            else (a.1, a.2.1, a.2.2 + 1)) a
        = (a.1 + (results.countP fun r => r.success),
           a.2.1 + ((results.filter fun r => r.success).map
              fun r => r.new_episodes).sum,
           a.2.2 + (results.countP fun r => !r.success)) := by
  induction results with
  | nil => intro a; simp
  | cons r rest ih =>
    intro a
    rw [List.foldl_cons, ih]
    cases hs : r.success <;>
      simp [hs, List.countP_cons, List.filter_cons, Prod.ext_iff] <;>
      omega

lemma gatherChecks_counts (subs : List Subscr) :
    ∀ st : Ledger,
      ((gatherChecks subs st).1.countP fun r => r.success)
          = (subs.countP fun s => s.update_raises.isNone)
      ∧ ((gatherChecks subs st).1.countP fun r => !r.success)
          = (subs.countP fun s => s.update_raises.isSome)
      ∧ (gatherChecks subs st).1.length = subs.length := by
  induction subs with
  | nil => intro st; refine ⟨rfl, rfl, rfl⟩
  | cons s rest ih =>
    intro st
    simp only [gatherChecks, List.countP_cons, List.length_cons]
    obtain ⟨ih1, ih2, ih3⟩ := ih (check_single_subscription st s).2
    refine ⟨?_, ?_, by simp [ih3]⟩
    · rw [ih1, check_single_subscription_success]
    · rw [ih2, check_single_subscription_success]
      cases s.update_raises <;> simp

lemma countP_isNone_add_isSome (subs : List Subscr) :
    (subs.countP fun s => s.update_raises.isNone)
      + (subs.countP fun s => s.update_raises.isSome) = subs.length := by
  induction subs with
  | nil => rfl
  | cons s rest ih =>
    cases h : s.update_raises <;> simp [List.countP_cons, h] <;> omega

/-- C4 amended: the poll never raises (the embedding is total — every
exception path of the source is a caught branch); `total` is the number of
active subscriptions, `checked` counts exactly the subscriptions whose
post-check repository write succeeds, `errors` exactly those where it
raises, so `checked + errors = total`.  A subscription whose feed URL fails
validation is NOT counted in `errors`: the `ValueError` is swallowed inside
`check_subscription_for_new_episodes`, so (when its bookkeeping write
succeeds) it is counted in `checked` with zero new episodes and an
unchanged ledger. -/
theorem poll_aggregate_characterization (subs : List Subscr) (st : Ledger) :
    (check_all_active_subscriptions subs st).1.total = subs.length
    ∧ (check_all_active_subscriptions subs st).1.checked
        = (subs.countP fun s => s.update_raises.isNone)
    ∧ (check_all_active_subscriptions subs st).1.errors
        = (subs.countP fun s => s.update_raises.isSome)
    ∧ (check_all_active_subscriptions subs st).1.checked
        + (check_all_active_subscriptions subs st).1.errors
        = (check_all_active_subscriptions subs st).1.total
    ∧ (∀ (st' : Ledger) (s : Subscr), validate_feed_url s.feed_url = false →
        s.update_raises = none →
          (check_single_subscription st' s).1.success = true
          ∧ (check_single_subscription st' s).1.new_episodes = 0
          ∧ (check_single_subscription st' s).2 = st') := by
  have hsingle : ∀ (st' : Ledger) (s : Subscr), validate_feed_url s.feed_url = false →
      s.update_raises = none →
        (check_single_subscription st' s).1.success = true
        ∧ (check_single_subscription st' s).1.new_episodes = 0
        ∧ (check_single_subscription st' s).2 = st' := by
    intro st' s hval hupd
    unfold check_single_subscription check_subscription_for_new_episodes fetch_rss_feed
    rw [hval]
    simp [hupd]
  by_cases hsubs : subs = []
  · subst hsubs
    exact ⟨rfl, rfl, rfl, rfl, hsingle⟩
  · obtain ⟨hc, he, hl⟩ := gatherChecks_counts subs st
    have hagg := aggregateResults_go (gatherChecks subs st).1 (0, 0, 0)
    unfold check_all_active_subscriptions aggregateResults
    rw [if_neg hsubs]
    simp only [hagg, Nat.zero_add]
    refine ⟨trivial, hc, he, ?_, hsingle⟩
    rw [hc, he]
    exact countP_isNone_add_isSome subs

def pollSub (n : String) (host : String) : Subscr :=
  { id := "sub-" ++ n, user_id := "user1", podcast_name := "P" ++ n
    feed_url := { scheme := "http", hostname := some host }
    feed := .ok [], update_raises := none }

def subs5 : List Subscr :=
  [pollSub "1" "feeds1.example.com", pollSub "2" "feeds2.example.com",
   pollSub "3" "192.168.1.10", pollSub "4" "feeds4.example.com",
   pollSub "5" "feeds5.example.com"]

unseal List.merge List.mergeSort in
/-- C4 counterexample, the claim's own scenario: five active
subscriptions, one of which now points at the private IP `192.168.1.10`.
The claim expects `errors = 1`; the code counts the invalid-URL
subscription as checked (`ValueError` is swallowed inside
`check_subscription_for_new_episodes`), so the poll reports `errors = 0`
and `checked = 5`.  `List.mergeSort` is unsealed so the concrete run
reduces. -/
theorem poll_private_ip_counted_checked_not_errors :
    validate_feed_url { scheme := "http", hostname := some "192.168.1.10" } = false
    ∧ (check_all_active_subscriptions subs5 ⟨[], 1⟩).1.errors = 0
    ∧ (check_all_active_subscriptions subs5 ⟨[], 1⟩).1.checked = 5
    ∧ (check_all_active_subscriptions subs5 ⟨[], 1⟩).1.total = 5 := by
  refine ⟨?_, ?_, ?_, ?_⟩ <;> decide

/-- Witness for the amended C4 at the five-subscription scenario. -/
theorem poll_aggregate_characterization_witness :
    ((check_all_active_subscriptions subs5 ⟨[], 1⟩).1.checked
        + (check_all_active_subscriptions subs5 ⟨[], 1⟩).1.errors
        = (check_all_active_subscriptions subs5 ⟨[], 1⟩).1.total)
    ∧ (check_single_subscription ⟨[], 1⟩ (pollSub "3" "192.168.1.10")).1.success
        = true :=
  ⟨(poll_aggregate_characterization subs5 ⟨[], 1⟩).2.2.2.1,
    ((poll_aggregate_characterization subs5 ⟨[], 1⟩).2.2.2.2 ⟨[], 1⟩
      (pollSub "3" "192.168.1.10") (by decide) rfl).1⟩
